import Mathlib

/-!
Verification development for the logveil masking engine
(src/core/detectors.ts, src/core/rules.ts, src/core/masker.ts).

The JavaScript code is shallowly embedded: JS values become the inductive
type `JSValue`, the regular expressions used by the engine (all of which
are linear sequences of character classes with quantifiers, plus anchors
and word boundaries) become `JSRegex`, and every engine operation becomes
an executable Lean function mirroring the corresponding TS function.
Node.js crypto (an external collaborator, not part of the repository) is
abstracted as a hash parameter `hashHex` threaded through the engine.
-/

namespace LogVeil

/-- JS word character, the class matched by regex `\w` (ASCII letters, digits, underscore). -/
def isWordChar (c : Char) : Bool :=
  ('a' ≤ c && c ≤ 'z') || ('A' ≤ c && c ≤ 'Z') || ('0' ≤ c && c ≤ '9') || c = '_'

/-- JS digit character, the class matched by regex `\d`. -/
def isDigitC (c : Char) : Bool := '0' ≤ c && c ≤ '9'

/-- ASCII letter, the class `[a-zA-Z]`. -/
def isAsciiAlpha (c : Char) : Bool := ('a' ≤ c && c ≤ 'z') || ('A' ≤ c && c ≤ 'Z')

/-- JS whitespace as matched by regex `\s` and trimmed by `String.trim` (ASCII part). -/
def isJSSpace (c : Char) : Bool :=
  c = ' ' || c = '\t' || c = '\n' || c = '\r' || c = '\x0b' || c = '\x0c'

/-- JS `String.prototype.trim`. -/
def jsTrim (s : List Char) : List Char :=
  ((s.dropWhile isJSSpace).reverse.dropWhile isJSSpace).reverse

/-- JS `String.prototype.toLowerCase` (ASCII). -/
def jsToLower (s : String) : String := String.mk (s.data.map Char.toLower)

/-- Word-character test on an optional char; positions outside the string count as non-word. -/
def wordAt : Option Char → Bool
  | none => false
  | some c => isWordChar c

/-- JS word boundary `\b`: the position between chars `a` and `b` is a boundary
when exactly one side is a word character. -/
def isBoundary (a b : Option Char) : Bool := wordAt a != wordAt b

/-- One element of a linear JS regex: a character class repeated between
`lo` and `hi` times (`hi = none` means unbounded), e.g. `[0-9]{1,4}` or `[(]?`. -/
structure RItem where
  cls : Char → Bool
  lo : Nat
  hi : Option Nat

/-- Length of the maximal prefix of `s` whose chars are all in the class. -/
def classRun (cls : Char → Bool) : List Char → Nat
  | [] => 0
  | c :: rest => if cls c then classRun cls rest + 1 else 0

/-- Greedy backtracking matcher for a sequence of `RItem`s against a prefix of `s`,
mirroring JS regex semantics for class-quantifier sequences: each quantifier
first tries its maximal repetition count and backtracks downwards.
`prev` is the char just before the current position (for boundary assertions),
`endOk prev rest` is the condition checked where the item list is exhausted
(end-of-match assertion such as `\b` or `$`). Returns the number of chars consumed. -/
def matchSeq (endOk : Option Char → List Char → Bool) :
    List RItem → Option Char → List Char → Option Nat
  | [], prev, s => if endOk prev s then some 0 else none
  | it :: rest, prev, s =>
    let run := classRun it.cls s
    let cap := match it.hi with
      | some m => Nat.min m run
      | none => run
    if cap < it.lo then none
    else
      ((List.range (cap + 1 - it.lo)).map (fun j => cap - j)).findSome?
        (fun k =>
          let prev2 := if k = 0 then prev else (s.take k).getLast?
          (matchSeq endOk rest prev2 (s.drop k)).map (fun n => k + n))

/-- A JS regular expression of the shape used throughout the engine:
an optional `^` anchor, a sequence of class items, an optional `$` anchor. -/
structure JSRegex where
  aStart : Bool
  aEnd : Bool
  items : List RItem

/-- Search for the leftmost match of `r` in the string, like the JS regex engine:
try each start position from left to right (only position 0 when `^`-anchored);
`$` requires the match to consume the rest of the string.
Returns `(start, length)` of the first match. -/
def searchAux (r : JSRegex) : Option Char → List Char → Nat → Option (Nat × Nat)
  | prev, s, pos =>
    match matchSeq (fun _ rem => !r.aEnd || rem.isEmpty) r.items prev s with
    | some L => some (pos, L)
    | none =>
      if r.aStart then none
      else match s with
        | [] => none
        | c :: rest => searchAux r (some c) rest (pos + 1)

/-- JS `RegExp.prototype.test`. -/
def jsRegexTest (r : JSRegex) (s : List Char) : Bool := (searchAux r none s 0).isSome

/-- JS `str.match(re)?.[0]`: the text of the first match, if any. -/
def jsFirstMatch (r : JSRegex) (s : List Char) : Option (List Char) :=
  (searchAux r none s 0).map (fun p => (s.drop p.1).take p.2)

/-- Global scan-and-replace of a `\b`-wrapped item sequence over a string, like
`str.replace(new RegExp(src, "g"), f)` for a pattern `\b...\b`: matching runs
left to right over the original text, each match (which is never re-scanned) is
replaced by `f` applied to the matched text and scanning resumes after it.
The fuel argument starts at the string length; every step consumes at least one
char of the string and exactly that much fuel, so fuel never runs out early
(zero-length matches are skipped like non-matches). -/
def scanGo (items : List RItem) (f : List Char → List Char) :
    Nat → Nat → Option Char → List Char → List Char
  | 0, _, _, s => s
  | _ + 1, _, _, [] => []
  | fuel + 1, skip + 1, _, c :: rest => scanGo items f fuel skip (some c) rest
  | fuel + 1, 0, prev, c :: rest =>
    match (if isBoundary prev (some c) then
             matchSeq (fun p rem => isBoundary p rem.head?) items prev (c :: rest)
           else none) with
    | some (L + 1) => f ((c :: rest).take (L + 1)) ++ scanGo items f fuel L (some c) rest
    | _ => c :: scanGo items f fuel 0 (some c) rest

/-- Run a global boundary-wrapped replace over a whole string. The fuel
counter equals the number of chars left to examine (one fuel per char); when a
match of length `L + 1` is found its replacement is emitted and the remaining
`L` matched chars are dropped through the skip counter, so scanning resumes
right after the match with the last matched char as boundary context, exactly
like the JS global-replace loop over the original string. -/
def scanReplaceAll (items : List RItem) (f : List Char → List Char) (s : List Char) : List Char :=
  scanGo items f s.length 0 none s

/-- Item `[c]` (a single literal char). -/
def chr (c : Char) : RItem := ⟨fun x => x = c, 1, some 1⟩

/-- Item `[cls]?`. -/
def opt (cls : Char → Bool) : RItem := ⟨cls, 0, some 1⟩

/-- Item `[cls]+`. -/
def plus (cls : Char → Bool) : RItem := ⟨cls, 1, none⟩

/-- Item with explicit bounds `[cls]{lo,hi}`. -/
def rep (cls : Char → Bool) (lo hi : Nat) : RItem := ⟨cls, lo, some hi⟩

/-- Item `[cls]{lo,}`. -/
def atLeast (cls : Char → Bool) (lo : Nat) : RItem := ⟨cls, lo, none⟩

/-- Regex for a sequence of literal characters (each char is a singleton class). -/
def litItems (s : String) : List RItem := s.data.map chr

mutual
/-- A JavaScript runtime value as handled by the engine: primitives, `null`,
`undefined`, `Date`, `RegExp` (as data), arrays and plain objects (ordered
own enumerable string keys). -/
inductive JSValue where
  | vNull
  | vUndefined
  | vBool (b : Bool)
  | vNum (n : Int)
  | vStr (s : String)
  | vDate (t : Int)
  | vRegExpV (source flags : String)
  | vArr (items : JSList)
  | vObj (fields : JSFields)
deriving DecidableEq

/-- A JS array of values. -/
inductive JSList where
  | nil
  | cons (head : JSValue) (tail : JSList)
deriving DecidableEq

/-- The ordered own enumerable key/value pairs of a JS plain object. -/
inductive JSFields where
  | fnil
  | fcons (key : String) (head : JSValue) (tail : JSFields)
deriving DecidableEq
end

mutual
/-- `Masker.deepClone`: primitives (and null/undefined) returned as-is, `Date`
and `RegExp` rebuilt from their data via their constructors, arrays cloned
element-wise, plain objects cloned key-wise over own enumerable keys. -/
def deepClone : JSValue → JSValue
  | .vNull => .vNull
  | .vUndefined => .vUndefined
  | .vBool b => .vBool b
  | .vNum n => .vNum n
  | .vStr s => .vStr s
  | .vDate t => .vDate t
  | .vRegExpV src fl => .vRegExpV src fl
  | .vArr items => .vArr (deepCloneL items)
  | .vObj fields => .vObj (deepCloneF fields)

/-- Element-wise clone of a JS array (`obj.map(item => this.deepClone(item))`). -/
def deepCloneL : JSList → JSList
  | .nil => .nil
  | .cons v tl => .cons (deepClone v) (deepCloneL tl)

/-- Key-wise clone of a plain object (`for key in obj ... cloned[key] = deepClone(obj[key])`). -/
def deepCloneF : JSFields → JSFields
  | .fnil => .fnil
  | .fcons k v tl => .fcons k (deepClone v) (deepCloneF tl)
end

/-- Masking strategy (`MaskingStrategy` in types.ts): `partial`, `full`, `hash`, `remove`. -/
inductive MaskingStrategy where
  | partialS
  | fullS
  | hashS
  | removeS
deriving DecidableEq, Repr

/-- Sensitivity class (`FieldType` in types.ts). -/
inductive FieldType where
  | pii
  | phi
  | custom
deriving DecidableEq, Repr

/-- Environment tag (`Environment` in types.ts). -/
inductive Env where
  | development
  | staging
  | production
deriving DecidableEq, Repr

/-- The `strategy` value recorded in a detected-field entry: either one of the
four strategies, or the literal string tag `"custom"` used when a custom
mask function was applied. -/
inductive AppliedStrategy where
  | strat (s : MaskingStrategy)
  | custom
deriving DecidableEq, Repr

/-- A user-supplied custom pattern (`CustomPattern` in types.ts). The matcher is
a JS regex; `customMask` is the optional user transform on the matched string. -/
structure CustomPattern where
  name : String
  pattern : JSRegex
  fieldType : FieldType
  maskingStrategy : Option MaskingStrategy := none
  customMask : Option (String → String) := none
  description : Option String := none

/-- A built-in detection rule (`DetectionPattern` in types.ts): a name, a value
test implementing its anchored regex, and a sensitivity class. -/
structure DetectionPattern where
  name : String
  test : List Char → Bool
  fieldType : FieldType

/-- A per-field override rule (`FieldMaskingRule` in types.ts): an exact field
name or a regex, the strategy, and an optional custom transform. -/
structure FieldMaskingRule where
  field : Sum String JSRegex
  strategy : MaskingStrategy
  customMask : Option (JSValue → String) := none

/-- Default PII environment-to-strategy table (rules.ts). -/
def DEFAULT_PII_ENVIRONMENT_MAPPING : Env → MaskingStrategy
  | .development => .partialS
  | .staging => .fullS
  | .production => .hashS

/-- Default PHI environment-to-strategy table (rules.ts). -/
def DEFAULT_PHI_ENVIRONMENT_MAPPING : Env → MaskingStrategy
  | .development => .fullS
  | .staging => .fullS
  | .production => .hashS

/-- Character class of `/^[\+\-\(\)\s\d]+$/`, the phone-shape test in `partialMask`. -/
def isPhoneChar (c : Char) : Bool :=
  c = '+' || c = '-' || c = '(' || c = ')' || isJSSpace c || isDigitC c

/-- Local part used by `partialMask` for values containing `@`:
`value.split("@")[0]`. -/
def localOf (s : List Char) : List Char := s.takeWhile (fun c => c ≠ '@')

/-- Domain part used by `partialMask`: `value.split("@")[1]` (the segment
between the first and second `@`). -/
def domainOf (s : List Char) : List Char :=
  ((s.dropWhile (fun c => c ≠ '@')).drop 1).takeWhile (fun c => c ≠ '@')

/-- Whether a string matches `/^[\+\-\(\)\s\d]+$/` (nonempty, all chars in class). -/
def phoneShape (s : List Char) : Bool := !s.isEmpty && s.all isPhoneChar

/-- `partialMask` from rules.ts. Empty strings get the fixed token; values with
`@` are treated as emails (up to 2 leading local chars kept, domain verbatim);
phone-shaped values with at least 4 digits keep the last 4 digits and get one
mask char per remaining digit; otherwise up to 2 leading chars are kept. -/
def partialMask (value : String) : String :=
  let s := value.data
  if s.length = 0 then "********"
  else if s.contains '@' then
    let localPart := localOf s
    let domain := domainOf s
    let visibleChars := Nat.min 2 (localPart.length / 3)
    String.mk (localPart.take visibleChars ++ "****".data ++ '@' :: domain)
  else if phoneShape s ∧ 4 ≤ (s.filter isDigitC).length then
    let digits := s.filter isDigitC
    String.mk (List.replicate (digits.length - 4) '*' ++ digits.drop (digits.length - 4))
  else
    let visibleChars := Nat.min 2 (s.length / 3)
    String.mk (s.take visibleChars ++ "****".data)

/-- `fullMask` from rules.ts. -/
def fullMask (_value : JSValue) : String := "********"

/-- Minimal structural serialization standing in for the external builtin
`JSON.stringify`, used only to feed non-string values to the (abstract) hash. -/
def jsonStringify : JSValue → String
  | .vNull => "null"
  | .vUndefined => "undefined"
  | .vBool true => "true"
  | .vBool false => "false"
  | .vNum n => toString n
  | .vStr s => "\"" ++ s ++ "\""
  | .vDate t => "\"date:" ++ toString t ++ "\""
  | .vRegExpV _ _ => "\x7b\x7d"
  | .vArr _ => "[...]"
  | .vObj _ => "\x7b...\x7d"

/-- `hashMask` from rules.ts: digest the value (strings as-is, other values
serialized) with the configured algorithm and keep the first 16 hex chars.
`hashHex` abstracts the Node crypto collaborator. -/
def hashMask (hashHex : String → String → String) (value : JSValue) (algorithm : String) : String :=
  let stringValue := match value with
    | .vStr s => s
    | v => jsonStringify v
  "<hashed:" ++ (hashHex algorithm stringValue).take 16 ++ ">"

/-- `applyMaskingStrategy` from rules.ts. `remove` yields `undefined`. -/
def applyMaskingStrategy (hashHex : String → String → String) (value : JSValue)
    (strategy : MaskingStrategy) (hashAlgorithm : String) : JSValue :=
  match strategy with
  | .partialS => match value with
    | .vStr s => .vStr (partialMask s)
    | v => .vStr (fullMask v)
  | .fullS => .vStr (fullMask value)
  | .hashS => .vStr (hashMask hashHex value hashAlgorithm)
  | .removeS => .vUndefined

/-- `getMaskingStrategy` from rules.ts as reached through the engine: the
per-class mapping (always supplied by the rules object) is consulted at the
current environment and falls back per-entry to the default table; the
`custom` class defaults to `full`. -/
def getMaskingStrategyFor (fieldType : FieldType) (env : Env)
    (piiMapping phiMapping : Env → Option MaskingStrategy) : MaskingStrategy :=
  match fieldType with
  | .phi => (phiMapping env).getD (DEFAULT_PHI_ENVIRONMENT_MAPPING env)
  | .pii => (piiMapping env).getD (DEFAULT_PII_ENVIRONMENT_MAPPING env)
  | .custom => .fullS

/-- The state of a `MaskingRules` instance. -/
structure RulesState where
  rules : List FieldMaskingRule
  env : Env
  hashAlgorithm : String
  piiMapping : Env → Option MaskingStrategy
  phiMapping : Env → Option MaskingStrategy

/-- `MaskingRules.findRule`: first rule whose field matches the name
(case-insensitive for exact strings, regex test otherwise). -/
def RulesState.findRule (r : RulesState) (fieldName : String) : Option FieldMaskingRule :=
  r.rules.find? (fun rule => match rule.field with
    | .inl s => jsToLower s = jsToLower fieldName
    | .inr re => jsRegexTest re fieldName.data)

/-- `MaskingRules.getStrategy`: explicit rule first, else the environment-based
strategy for the class, else `full`. -/
def RulesState.getStrategy (r : RulesState) (fieldName : String)
    (fieldType : Option FieldType) : MaskingStrategy :=
  match r.findRule fieldName with
  | some rule => rule.strategy
  | none => match fieldType with
    | some ft => getMaskingStrategyFor ft r.env r.piiMapping r.phiMapping
    | none => .fullS

/-- `MaskingRules.maskValue`: a matching rule with a custom transform wins,
else the resolved strategy is applied. -/
def RulesState.maskValue (hashHex : String → String → String) (r : RulesState)
    (fieldName : String) (value : JSValue) (fieldType : Option FieldType) : JSValue :=
  match r.findRule fieldName with
  | some rule => match rule.customMask with
    | some f => .vStr (f value)
    | none => applyMaskingStrategy hashHex value (r.getStrategy fieldName fieldType) r.hashAlgorithm
  | none => applyMaskingStrategy hashHex value (r.getStrategy fieldName fieldType) r.hashAlgorithm

/-- `MaskingRules.applyCustomStrategy`: apply a specific strategy, defaulting
the algorithm to the one configured on the rules object. -/
def RulesState.applyCustomStrategy (hashHex : String → String → String) (r : RulesState)
    (value : JSValue) (strategy : MaskingStrategy) (hashAlgorithm : Option String) : JSValue :=
  applyMaskingStrategy hashHex value strategy (hashAlgorithm.getD r.hashAlgorithm)

/-- Class `[a-zA-Z0-9._%+-]` (email local part). -/
def emailLocalChar (c : Char) : Bool :=
  isAsciiAlpha c || isDigitC c || c = '.' || c = '_' || c = '%' || c = '+' || c = '-'

/-- Class `[a-zA-Z0-9.-]` (email domain). -/
def emailDomainChar (c : Char) : Bool := isAsciiAlpha c || isDigitC c || c = '.' || c = '-'

/-- Class `[-\s\.]` (phone separators). -/
def phoneSepChar (c : Char) : Bool := c = '-' || isJSSpace c || c = '.'

/-- Class `[-\s]` (card separators). -/
def cardSepChar (c : Char) : Bool := c = '-' || isJSSpace c

/-- Items of `[a-zA-Z0-9._%+-]+@[a-zA-Z0-9.-]+\.[a-zA-Z]{2,}` (email). -/
def emailItems : List RItem :=
  [plus emailLocalChar, chr '@', plus emailDomainChar, chr '.', atLeast isAsciiAlpha 2]

/-- Items of `[\+]?[(]?[0-9]{1,4}[)]?[-\s\.]?[(]?[0-9]{1,4}[)]?[-\s\.]?` followed
by the final digit run (with the given bounds), shared by the exact phone
pattern (`[0-9]{1,9}`) and the in-text phone pattern (`[0-9]{4,}`). -/
def phoneItemsWith (lastRun : RItem) : List RItem :=
  [opt (fun c => c = '+'), opt (fun c => c = '('), rep isDigitC 1 4, opt (fun c => c = ')'),
   opt phoneSepChar, opt (fun c => c = '('), rep isDigitC 1 4, opt (fun c => c = ')'),
   opt phoneSepChar, lastRun]

/-- Items of `\d{3}-?\d{2}-?\d{4}` (exact SSN pattern). -/
def ssnExactItems : List RItem :=
  [rep isDigitC 3 3, opt (fun c => c = '-'), rep isDigitC 2 2,
   opt (fun c => c = '-'), rep isDigitC 4 4]

/-- Items of `\d{4}[-\s]?\d{4}[-\s]?\d{4}[-\s]?\d{4}` (credit card). -/
def cardItems : List RItem :=
  [rep isDigitC 4 4, opt cardSepChar, rep isDigitC 4 4, opt cardSepChar,
   rep isDigitC 4 4, opt cardSepChar, rep isDigitC 4 4]

/-- Split on literal dots, like JS `"a.b".split(".")` restricted to chars. -/
def splitDots : List Char → List (List Char)
  | [] => [[]]
  | c :: rest =>
    if c = '.' then [] :: splitDots rest
    else match splitDots rest with
      | [] => [[c]]
      | p :: ps => (c :: p) :: ps

/-- Language of one IPv4 octet alternative `(25[0-5]|2[0-4][0-9]|[01]?[0-9][0-9]?)`. -/
def ipv4OctetOK : List Char → Bool
  | [a] => isDigitC a
  | [a, b] => isDigitC a && isDigitC b
  | [a, b, c] =>
    (a = '2' && b = '5' && ('0' ≤ c && c ≤ '5')) ||
    (a = '2' && ('0' ≤ b && b ≤ '4') && isDigitC c) ||
    ((a = '0' || a = '1') && isDigitC b && isDigitC c)
  | _ => false

/-- Exact-match test of the anchored IPv4 pattern
`^(?:octet\.){3}octet$`: four dot-separated octets. -/
def ipv4Test (s : List Char) : Bool :=
  let parts := splitDots s
  parts.length = 4 && parts.all ipv4OctetOK

/-- Exact-match test of an anchored `^...$` linear pattern. -/
def anchoredTest (items : List RItem) (s : List Char) : Bool :=
  jsRegexTest ⟨true, true, items⟩ s

/-- Exact-match test of the case-insensitive prefixed-identifier PHI patterns
`^(P1|P2|...)[-_]?\d+$/i`: one of the prefixes (case-insensitively), an
optional `-` or `_`, then one or more digits. -/
def digits1 (l : List Char) : Bool := !l.isEmpty && l.all isDigitC

/-- Tail `[-_]?\d+$` of the PHI identifier patterns. -/
def idTailOK : List Char → Bool
  | [] => false
  | c :: rest => if c = '-' || c = '_' then digits1 rest else digits1 (c :: rest)

/-- Test of `^(p1|p2|...)[-_]?\d+$/i` where each prefix is given lower-cased. -/
def idPatternTest (prefixes : List (List Char)) (s : List Char) : Bool :=
  let sl := s.map Char.toLower
  prefixes.any (fun p => sl.take p.length == p && idTailOK (sl.drop p.length))

/-- `PII_PATTERNS` from detectors.ts, in source order. -/
def PII_PATTERNS : List DetectionPattern :=
  [⟨"email", anchoredTest emailItems, .pii⟩,
   ⟨"phone", anchoredTest (phoneItemsWith (rep isDigitC 1 9)), .pii⟩,
   ⟨"ssn", anchoredTest ssnExactItems, .pii⟩,
   ⟨"creditCard", anchoredTest cardItems, .pii⟩,
   ⟨"ipv4", ipv4Test, .pii⟩]

/-- `PHI_PATTERNS` from detectors.ts, in source order. -/
def PHI_PATTERNS : List DetectionPattern :=
  [⟨"patientId", idPatternTest ["pat".data, "pt".data, "patient".data], .phi⟩,
   ⟨"medicalRecordNumber", idPatternTest ["mrn".data, "mr".data], .phi⟩,
   ⟨"healthPlanId", idPatternTest ["hp".data, "health".data], .phi⟩]

/-- `COMMON_PII_FIELDS` from detectors.ts. -/
def COMMON_PII_FIELDS : List String :=
  ["email", "emailAddress", "phone", "phoneNumber", "mobile", "ssn",
   "socialSecurityNumber", "creditCard", "cardNumber", "password", "secret",
   "token", "apiKey", "accessToken", "refreshToken", "address", "streetAddress",
   "zipCode", "postalCode", "dateOfBirth", "dob", "birthDate", "ipAddress", "ip"]

/-- `COMMON_PHI_FIELDS` from detectors.ts. -/
def COMMON_PHI_FIELDS : List String :=
  ["patientId", "patientName", "medicalRecordNumber", "mrn", "diagnosis",
   "medication", "prescription", "healthPlanId", "insuranceId", "treatmentPlan",
   "labResults", "vitalSigns", "allergies"]

/-- Match of a word (all word characters) at the current position with `\b` on
both sides: the word is a prefix here, preceded and followed by non-word
context. Implements `new RegExp("\\b" + w + "\\b").test` at one position. -/
def wordMatchHere (w : List Char) (prev : Option Char) (s : List Char) : Bool :=
  s.take w.length == w && isBoundary prev s.head? &&
    isBoundary (s.take w.length).getLast? (s.drop w.length).head?

/-- Search a whole string for a `\b`-delimited occurrence of a word. -/
def wordBoundarySearch (w : List Char) : Option Char → List Char → Bool
  | prev, [] => wordMatchHere w prev []
  | prev, c :: rest => wordMatchHere w prev (c :: rest) || wordBoundarySearch w (some c) rest

/-- `new RegExp("\\b" + w.toLowerCase() + "\\b").test(s)`. -/
def wordBoundaryTest (w : String) (s : String) : Bool :=
  wordBoundarySearch w.data none s.data

/-- `Detector.isPIIFieldName`: some common PII field name occurs with word
boundaries in the lower-cased field name. -/
def Detector.isPIIFieldName (fieldName : String) : Bool :=
  let lower := jsToLower fieldName
  COMMON_PII_FIELDS.any (fun piiField => wordBoundaryTest (jsToLower piiField) lower)

/-- `Detector.isPHIFieldName`. -/
def Detector.isPHIFieldName (fieldName : String) : Bool :=
  let lower := jsToLower fieldName
  COMMON_PHI_FIELDS.any (fun phiField => wordBoundaryTest (jsToLower phiField) lower)

/-- The state of a `Detector` instance. -/
structure DetectorState where
  piiPatterns : List DetectionPattern
  phiPatterns : List DetectionPattern
  customPatterns : List CustomPattern

/-- `Detector.detectPIIValue`: first built-in PII pattern whose test accepts the
string value; non-strings never match. -/
def Detector.detectPIIValue (d : DetectorState) (value : JSValue) : Option DetectionPattern :=
  match value with
  | .vStr s => d.piiPatterns.find? (fun p => p.test s.data)
  | _ => none

/-- `Detector.detectPHIValue`. -/
def Detector.detectPHIValue (d : DetectorState) (value : JSValue) : Option DetectionPattern :=
  match value with
  | .vStr s => d.phiPatterns.find? (fun p => p.test s.data)
  | _ => none

/-- `Detector.detectCustomValue`: first custom pattern whose regex tests
positively against the string value (`pattern.test`, i.e. a match anywhere,
subject only to the pattern's own anchors). -/
def Detector.detectCustomValue (d : DetectorState) (value : JSValue) : Option CustomPattern :=
  match value with
  | .vStr s => d.customPatterns.find? (fun p => jsRegexTest p.pattern s.data)
  | _ => none

/-- `Detector.detectExactCustomValue`: first custom pattern that tests positively
on the raw value and on the trimmed value, and whose first match on the trimmed
value is the entire trimmed value. -/
def Detector.detectExactCustomValue (d : DetectorState) (value : JSValue) : Option CustomPattern :=
  match value with
  | .vStr s =>
    d.customPatterns.find? (fun p =>
      jsRegexTest p.pattern s.data && jsRegexTest p.pattern (jsTrim s.data) &&
        jsFirstMatch p.pattern (jsTrim s.data) == some (jsTrim s.data))
  | _ => none

/-- `Detector.detectFieldType`: PHI field name, then PII field name, then custom
value pattern (via `detectCustomValue`), then built-in PHI value pattern, then
built-in PII value pattern. -/
def Detector.detectFieldType (d : DetectorState) (fieldName : String) (value : JSValue) :
    Option FieldType :=
  if Detector.isPHIFieldName fieldName then some .phi
  else if Detector.isPIIFieldName fieldName then some .pii
  else match Detector.detectCustomValue d value with
    | some cp => some cp.fieldType
    | none => match Detector.detectPHIValue d value with
      | some _ => some .phi
      | none => match Detector.detectPIIValue d value with
        | some _ => some .pii
        | none => none

/-- `Detector.getMatchingCustomPattern` (exact match for field context). -/
def Detector.getMatchingCustomPattern (d : DetectorState) (value : JSValue) : Option CustomPattern :=
  Detector.detectExactCustomValue d value

/-- `Detector.addCustomPattern`: rejects a duplicate name with a configuration
error, otherwise appends. -/
def Detector.addCustomPatternD (d : DetectorState) (p : CustomPattern) :
    Except String DetectorState :=
  if d.customPatterns.any (fun q => q.name = p.name) then
    .error ("Custom pattern with name " ++ p.name ++ " already exists")
  else
    .ok { d with customPatterns := d.customPatterns ++ [p] }

/-- Remove the first pattern with the given name (JS `splice` at `findIndex`). -/
def removeFirstByName : List CustomPattern → String → List CustomPattern
  | [], _ => []
  | p :: rest, n => if p.name = n then rest else p :: removeFirstByName rest n

/-- `Detector.removeCustomPattern`. -/
def Detector.removeCustomPatternD (d : DetectorState) (name : String) : DetectorState × Bool :=
  if d.customPatterns.any (fun p => p.name = name) then
    ({ d with customPatterns := removeFirstByName d.customPatterns name }, true)
  else (d, false)

/-- `Detector.clearCustomPatterns`. -/
def Detector.clearCustomPatternsD (d : DetectorState) : DetectorState :=
  { d with customPatterns := [] }

/-- `applyMaskingToMatch` from detectors.ts: masking of one matched substring
during string scanning (hash uses sha256 with the first 16 hex chars; `partial`
is the generic first-2-chars reveal). -/
def applyMaskingToMatch (hashHex : String → String → String) (value : String)
    (strategy : MaskingStrategy) : String :=
  match strategy with
  | .fullS => "********"
  | .hashS => "<hashed:" ++ (hashHex "sha256" value).take 16 ++ ">"
  | .removeS => "<removed>"
  | .partialS =>
    let visibleChars := Nat.min 2 (value.data.length / 3)
    String.mk (value.data.take visibleChars) ++ "****"

/-- One custom pattern pass of `maskStringValue`: the pattern source is
de-anchored and wrapped in `\b` boundaries, then globally replaced using the
pattern's custom mask, else its explicit strategy, else the caller strategy. -/
def customScanOne (hashHex : String → String → String) (strategy : MaskingStrategy)
    (s : List Char) (cp : CustomPattern) : List Char :=
  scanReplaceAll cp.pattern.items
    (fun m =>
      match cp.customMask with
      | some f => (f (String.mk m)).data
      | none => match cp.maskingStrategy with
        | some st => (applyMaskingToMatch hashHex (String.mk m) st).data
        | none => (applyMaskingToMatch hashHex (String.mk m) strategy).data)
    s

/-- The custom-pattern phase of `maskStringValue`: each registered pattern is
applied in order, each pass running over the output of the previous one. -/
def customScanPass (hashHex : String → String → String) (d : DetectorState)
    (strategy : MaskingStrategy) (s : List Char) : List Char :=
  d.customPatterns.foldl (customScanOne hashHex strategy) s

/-- Replacement for one in-text email match. -/
def emailReplace (hashHex : String → String → String) (strategy : MaskingStrategy)
    (m : List Char) : List Char :=
  match strategy with
  | .fullS => "********".data
  | .hashS => ("<hashed:" ++ (hashHex "sha256" (String.mk m)).take 16 ++ ">").data
  | _ =>
    let localPart := localOf m
    let domain := (m.dropWhile (fun c => c ≠ '@')).drop 1
    let visibleChars := Nat.min 2 (localPart.length / 3)
    localPart.take visibleChars ++ "****".data ++ '@' :: domain

/-- Replacement for one in-text phone match: keep the last 4 chars of the match
and emit one `*` per remaining matched char. -/
def phoneReplace (hashHex : String → String → String) (strategy : MaskingStrategy)
    (m : List Char) : List Char :=
  match strategy with
  | .fullS => "********".data
  | .hashS => ("<hashed:" ++ (hashHex "sha256" (String.mk m)).take 16 ++ ">").data
  | _ =>
    let digits := m.filter isDigitC
    if 4 ≤ digits.length then
      List.replicate (m.length - 4) '*' ++ m.drop (m.length - 4)
    else "********".data

/-- Replacement for one in-text SSN match. -/
def ssnReplace (strategy : MaskingStrategy) (_m : List Char) : List Char :=
  match strategy with
  | .hashS => "<hashed:ssn>".data
  | _ => "***-**-****".data

/-- Replacement for one in-text credit-card match. -/
def cardReplace (strategy : MaskingStrategy) (m : List Char) : List Char :=
  match strategy with
  | .partialS => "****-****-****-".data ++ m.drop (m.length - 4)
  | .hashS => "<hashed:card>".data
  | _ => "****-****-****-****".data

/-- The built-in phase of `maskStringValue`: the email, phone, SSN and
credit-card in-text patterns are globally replaced, in that order, each pass
running over the output of the previous one. -/
def builtinScanPass (hashHex : String → String → String) (strategy : MaskingStrategy)
    (s : List Char) : List Char :=
  let s1 := scanReplaceAll emailItems (emailReplace hashHex strategy) s
  let s2 := scanReplaceAll (phoneItemsWith (atLeast isDigitC 4)) (phoneReplace hashHex strategy) s1
  let s3 := scanReplaceAll [rep isDigitC 3 3, chr '-', rep isDigitC 2 2, chr '-', rep isDigitC 4 4]
    (ssnReplace strategy) s2
  scanReplaceAll cardItems (cardReplace strategy) s3

/-- `Detector.maskStringValue`: empty strings pass through; otherwise the
custom-pattern phase runs first and the built-in phase runs on its output. -/
def Detector.maskStringValue (hashHex : String → String → String) (d : DetectorState)
    (value : String) (strategy : MaskingStrategy) : String :=
  if value.data.length = 0 then value
  else String.mk (builtinScanPass hashHex strategy (customScanPass hashHex d strategy value.data))

/-- A detected-field record (`DetectedField` in types.ts). -/
structure DetectedField where
  path : String
  type : FieldType
  value : JSValue
  strategy : AppliedStrategy
  customPattern : Option String

/-- The result of a mask operation (`MaskingResult` in types.ts); the
detected-field list is absent for null/undefined input. -/
structure MaskingResult where
  masked : JSValue
  fieldsProcessed : Nat
  detectedFields : Option (List DetectedField)

/-- The user-facing configuration (`MaskingConfig` in types.ts); absent fields
get engine defaults in the constructor. Field lists mix exact names and
regexes. `hashHex` stands for the external crypto collaborator. -/
structure MaskingConfig where
  env : Option Env := none
  piiFields : List (Sum String JSRegex) := []
  phiFields : List (Sum String JSRegex) := []
  maskingRules : List FieldMaskingRule := []
  piiEnvironmentMapping : Option (Env → Option MaskingStrategy) := none
  phiEnvironmentMapping : Option (Env → Option MaskingStrategy) := none
  detectPII : Option Bool := none
  maskStringValues : Option Bool := none
  hashAlgorithm : Option String := none
  preserveStructure : Option Bool := none
  customPatterns : List CustomPattern := []

/-- The state of a `Masker` instance after construction. `configPatterns` is
the `customPatterns` array stored on `this.config` (distinct from the copy the
detector holds). -/
structure MaskerState where
  env : Env
  piiFieldSet : List String
  piiPatternList : List JSRegex
  phiFieldSet : List String
  phiPatternList : List JSRegex
  rules : RulesState
  detector : DetectorState
  detectPII : Bool
  maskStringValues : Bool
  hashAlgorithm : String
  preserveStructure : Bool
  configPatterns : List CustomPattern
  hashHex : String → String → String

/-- Exact (lower-cased) names among a configured field list. -/
def exactFieldNames (fields : List (Sum String JSRegex)) : List String :=
  fields.filterMap (fun f => match f with
    | .inl s => some (jsToLower s)
    | .inr _ => none)

/-- Regex patterns among a configured field list. -/
def regexFieldPatterns (fields : List (Sum String JSRegex)) : List JSRegex :=
  fields.filterMap (fun f => match f with
    | .inl _ => none
    | .inr r => some r)

/-- The `Masker` constructor: defaults (`production`, auto-detection on, string
scanning on, sha256, structure preserved), the rules engine (the environment
mappings default to the empty record, whose per-environment lookups fall back
to the default tables), the detector seeded with the custom patterns, and the
configured field lists split into lower-cased exact names and regexes. -/
def makeMasker (hashHex : String → String → String) (config : MaskingConfig) : MaskerState :=
  let env := config.env.getD .production
  let hashAlgorithm := config.hashAlgorithm.getD "sha256"
  { env := env
    piiFieldSet := exactFieldNames config.piiFields
    piiPatternList := regexFieldPatterns config.piiFields
    phiFieldSet := exactFieldNames config.phiFields
    phiPatternList := regexFieldPatterns config.phiFields
    rules := { rules := config.maskingRules
               env := env
               hashAlgorithm := hashAlgorithm
               piiMapping := config.piiEnvironmentMapping.getD (fun _ => none)
               phiMapping := config.phiEnvironmentMapping.getD (fun _ => none) }
    detector := ⟨PII_PATTERNS, PHI_PATTERNS, config.customPatterns⟩
    detectPII := config.detectPII.getD true
    maskStringValues := config.maskStringValues.getD true
    hashAlgorithm := hashAlgorithm
    preserveStructure := config.preserveStructure.getD true
    configPatterns := config.customPatterns
    hashHex := hashHex }

/-- `Masker.isPIIField`: exact lower-cased membership in the configured set, or
one of the configured regexes tests positively on the raw field name. -/
def Masker.isPIIField (m : MaskerState) (fieldName : String) : Bool :=
  m.piiFieldSet.contains (jsToLower fieldName) ||
    m.piiPatternList.any (fun r => jsRegexTest r fieldName.data)

/-- `Masker.isPHIField`. -/
def Masker.isPHIField (m : MaskerState) (fieldName : String) : Bool :=
  m.phiFieldSet.contains (jsToLower fieldName) ||
    m.phiPatternList.any (fun r => jsRegexTest r fieldName.data)

/-- `Masker.getFieldType`: configured PHI fields, then configured PII fields,
then (when auto-detection is on) the detector. -/
def Masker.getFieldType (m : MaskerState) (fieldName : String) (value : JSValue) :
    Option FieldType :=
  if Masker.isPHIField m fieldName then some .phi
  else if Masker.isPIIField m fieldName then some .pii
  else if m.detectPII then Detector.detectFieldType m.detector fieldName value
  else none

/-- The string carried by a string value; the custom-pattern transforms are only
reached for values the exact matcher accepted, which are always strings. -/
def jsStrOf : JSValue → String
  | .vStr s => s
  | _ => ""

/-- The masked value and recorded strategy for a classified field in
`maskObject`: if the value exactly matches a custom pattern of the same class,
that pattern's custom mask (recorded as `custom`) or explicit strategy is
preferred; otherwise (including a class mismatch) the rules engine decides. -/
def classifiedResult (m : MaskerState) (key : String) (value : JSValue) (ft : FieldType) :
    JSValue × AppliedStrategy :=
  match Detector.getMatchingCustomPattern m.detector value with
  | some cp =>
    if cp.fieldType = ft then
      match cp.customMask with
      | some f => (.vStr (f (jsStrOf value)), .custom)
      | none => match cp.maskingStrategy with
        | some st =>
          (RulesState.applyCustomStrategy m.hashHex m.rules value st (some m.hashAlgorithm),
           .strat st)
        | none =>
          (RulesState.maskValue m.hashHex m.rules key value (some ft),
           .strat (RulesState.getStrategy m.rules key (some ft)))
    else
      (RulesState.maskValue m.hashHex m.rules key value (some ft),
       .strat (RulesState.getStrategy m.rules key (some ft)))
  | none =>
    (RulesState.maskValue m.hashHex m.rules key value (some ft),
     .strat (RulesState.getStrategy m.rules key (some ft)))

/-- The detected-field record pushed for a classified field (the matched custom
pattern name is recorded even on a class mismatch). -/
def classifiedDetected (m : MaskerState) (key : String) (value : JSValue) (ft : FieldType)
    (currentPath : String) : DetectedField :=
  ⟨currentPath, ft, value, (classifiedResult m key value ft).2,
   (Detector.getMatchingCustomPattern m.detector value).map (fun cp => cp.name)⟩

/-- The output entry for a classified field: under the `remove` strategy the key
is kept with the placeholder exactly when structure is preserved, otherwise the
key is dropped; under any other strategy the masked value is bound. -/
def classifiedEntry (m : MaskerState) (key : String) (value : JSValue) (ft : FieldType) :
    Option (String × JSValue) :=
  if (classifiedResult m key value ft).2 = .strat .removeS then
    if m.preserveStructure then some (key, .vStr "<removed>") else none
  else some (key, (classifiedResult m key value ft).1)

/-- Prepend an optional entry to an object. -/
def consEntry : Option (String × JSValue) → JSFields → JSFields
  | none, tl => tl
  | some (k, v), tl => .fcons k v tl

/-- Values recursed into by `maskObject` (`typeof value === "object" &&
value !== null`): arrays, plain objects, and also Date/RegExp instances (which
have `typeof` object; null fails the second conjunct). -/
def isObjectType : JSValue → Bool
  | .vArr _ => true
  | .vObj _ => true
  | .vDate _ => true
  | .vRegExpV _ _ => true
  | _ => false

mutual
/-- `Masker.maskObject`: null, undefined and non-object primitives are returned
unchanged; arrays are mapped element-wise with bracketed paths; Date/RegExp
instances fall into the object branch whose `for..in` loop sees no own
enumerable keys, producing an empty object; plain objects are processed
key-wise by `maskFieldsGo`. The detected-field list is threaded through in
push order. -/
def maskObject (m : MaskerState) : JSValue → String → List DetectedField →
    JSValue × List DetectedField
  | .vNull, _, dfs => (.vNull, dfs)
  | .vUndefined, _, dfs => (.vUndefined, dfs)
  | .vBool b, _, dfs => (.vBool b, dfs)
  | .vNum n, _, dfs => (.vNum n, dfs)
  | .vStr s, _, dfs => (.vStr s, dfs)
  | .vDate _, _, dfs => (.vObj .fnil, dfs)
  | .vRegExpV _ _, _, dfs => (.vObj .fnil, dfs)
  | .vArr items, path, dfs =>
    let r := maskListGo m items path 0 dfs
    (.vArr r.1, r.2)
  | .vObj fields, path, dfs =>
    let r := maskFieldsGo m fields path dfs
    (.vObj r.1, r.2)

/-- Array traversal of `maskObject`: each element is processed by `maskObject`
with path `path[index]`. -/
def maskListGo (m : MaskerState) : JSList → String → Nat → List DetectedField →
    JSList × List DetectedField
  | .nil, _, _, dfs => (.nil, dfs)
  | .cons v tl, path, idx, dfs =>
    let r := maskObject m v (path ++ "[" ++ toString idx ++ "]") dfs
    let r2 := maskListGo m tl path (idx + 1) r.2
    (.cons r.1 r2.1, r2.2)

/-- Key-wise traversal of `maskObject` over a plain object: classified fields
get `classifiedEntry`/`classifiedDetected`; unclassified object values are
recursed into; unclassified string values are scanned for embedded patterns
(recorded as a PII detection only when the scan changed the string) when
string scanning is enabled; all other values are copied unchanged. -/
def maskFieldsGo (m : MaskerState) : JSFields → String → List DetectedField →
    JSFields × List DetectedField
  | .fnil, _, dfs => (.fnil, dfs)
  | .fcons key value tl, path, dfs =>
    let currentPath := if path = "" then key else path ++ "." ++ key
    match Masker.getFieldType m key value with
    | some ft =>
      let r := maskFieldsGo m tl path (dfs ++ [classifiedDetected m key value ft currentPath])
      (consEntry (classifiedEntry m key value ft) r.1, r.2)
    | none =>
      if isObjectType value then
        let r := maskObject m value currentPath dfs
        let r2 := maskFieldsGo m tl path r.2
        (.fcons key r.1 r2.1, r2.2)
      else match value with
        | .vStr s =>
          if m.maskStringValues then
            let strategy := RulesState.getStrategy m.rules "" (some .pii)
            let ms := Detector.maskStringValue m.hashHex m.detector s strategy
            let dfs2 := if ms ≠ s then
              dfs ++ [⟨currentPath, .pii, .vStr s, .strat strategy, none⟩] else dfs
            let r := maskFieldsGo m tl path dfs2
            (.fcons key (.vStr ms) r.1, r.2)
          else
            let r := maskFieldsGo m tl path dfs
            (.fcons key (.vStr s) r.1, r.2)
        | v =>
          let r := maskFieldsGo m tl path dfs
          (.fcons key v r.1, r.2)
end

/-- `Masker.mask`: null/undefined input is returned with zero fields processed
and no detected-field list; otherwise the input is deep-cloned, the clone is
traversed, and the result carries the masked tree, the detected-field list and
its length as the processed count. -/
def Masker.mask (m : MaskerState) (data : JSValue) : MaskingResult :=
  match data with
  | .vNull => ⟨.vNull, 0, none⟩
  | .vUndefined => ⟨.vUndefined, 0, none⟩
  | d =>
    let cloned := deepClone d
    let r := maskObject m cloned "" []
    ⟨r.1, r.2.length, some r.2⟩

/-- `Masker.addCustomPattern`: the pattern is pushed onto the stored
configuration first, then the detector add runs its duplicate-name check; on a
duplicate the error propagates with the configuration already extended. -/
def Masker.addCustomPattern (m : MaskerState) (p : CustomPattern) :
    MaskerState × Option String :=
  let m1 := { m with configPatterns := m.configPatterns ++ [p] }
  match Detector.addCustomPatternD m1.detector p with
  | .ok d => ({ m1 with detector := d }, none)
  | .error e => (m1, some e)

/-- `Masker.removeCustomPattern`: when the name is found in the stored
configuration it is spliced out there and removal is delegated to the
detector. -/
def Masker.removeCustomPattern (m : MaskerState) (name : String) : MaskerState × Bool :=
  if m.configPatterns.any (fun p => p.name = name) then
    let m1 := { m with configPatterns := removeFirstByName m.configPatterns name }
    let r := Detector.removeCustomPatternD m1.detector name
    ({ m1 with detector := r.1 }, r.2)
  else (m, false)

/-- `Masker.clearCustomPatterns`. -/
def Masker.clearCustomPatterns (m : MaskerState) : MaskerState :=
  { m with configPatterns := [], detector := Detector.clearCustomPatternsD m.detector }

/-- One runtime pattern-management operation on an engine instance. -/
inductive PatternOp where
  | addOp (p : CustomPattern)
  | removeOp (name : String)
  | clearOp

/-- Apply one pattern-management operation (ignoring the returned error/flag). -/
def applyPatternOp (m : MaskerState) : PatternOp → MaskerState
  | .addOp p => (Masker.addCustomPattern m p).1
  | .removeOp n => (Masker.removeCustomPattern m n).1
  | .clearOp => Masker.clearCustomPatterns m

/-- Apply a sequence of pattern-management operations. -/
def applyPatternOps (m : MaskerState) (ops : List PatternOp) : MaskerState :=
  ops.foldl applyPatternOp m

/-- The names registered in the detection registry of an engine. -/
def detectorNames (m : MaskerState) : List String :=
  m.detector.customPatterns.map (fun p => p.name)

/-- A concrete stand-in for the external hash collaborator, used to instantiate
engine states at concrete inputs (none of the statements below depend on the
digests it produces). -/
def dummyHash : String → String → String := fun _ _ => "0123456789abcdef0123"

/-- Unanchored custom pattern `ID-\d+` (matches anywhere inside a value). -/
def P2 : CustomPattern :=
  { name := "idsub", pattern := ⟨false, false, [chr 'I', chr 'D', chr '-', plus isDigitC]⟩,
    fieldType := .custom }

/-- A detector holding only the unanchored pattern `P2`. -/
def D2 : DetectorState := ⟨PII_PATTERNS, PHI_PATTERNS, [P2]⟩

/-- Anchored custom pattern `^ID-\d+$` of class PII with explicit `full` strategy. -/
def P3 : CustomPattern :=
  { name := "idp", pattern := ⟨true, true, [chr 'I', chr 'D', chr '-', plus isDigitC]⟩,
    fieldType := .pii, maskingStrategy := some .fullS }

/-- A development-environment engine holding only the anchored pattern `P3`. -/
def M3 : MaskerState := makeMasker dummyHash { env := some .development, customPatterns := [P3] }

/-- A custom pattern named `t`. -/
def P4 : CustomPattern :=
  { name := "t", pattern := ⟨false, false, litItems "x"⟩, fieldType := .custom }

/-- A different custom pattern that reuses the name `t`. -/
def P4b : CustomPattern :=
  { name := "t", pattern := ⟨false, false, litItems "y"⟩, fieldType := .pii }

/-- An engine holding only the pattern `P4`. -/
def M4 : MaskerState := makeMasker dummyHash { customPatterns := [P4] }

/-- Anchored custom pattern `^SECRETCODE$` whose custom mask substitutes a text
containing a digit run shaped like a phone number. -/
def P5 : CustomPattern :=
  { name := "code", pattern := ⟨true, true, litItems "SECRETCODE"⟩, fieldType := .custom,
    customMask := some (fun _ => "123 4567 8901") }

/-- A detector holding only the pattern `P5`. -/
def D5 : DetectorState := ⟨PII_PATTERNS, PHI_PATTERNS, [P5]⟩

/-- An engine where field `a` is configured PII with an explicit `remove` rule
and structure preservation enabled. -/
def M7a : MaskerState := makeMasker dummyHash
  { piiFields := [.inl "a"], maskingRules := [⟨.inl "a", .removeS, none⟩],
    preserveStructure := some true }

/-- Like `M7a` but with structure preservation disabled. -/
def M7b : MaskerState := makeMasker dummyHash
  { piiFields := [.inl "a"], maskingRules := [⟨.inl "a", .removeS, none⟩],
    preserveStructure := some false }

/-- An engine with the default configuration. -/
def M10 : MaskerState := makeMasker dummyHash {}

mutual
/-- The deep clone of any JS value is deep-equal to the original. -/
theorem deepCloneJS_eq : ∀ v : JSValue, deepClone v = v
  | .vNull => rfl
  | .vUndefined => rfl
  | .vBool _ => rfl
  | .vNum _ => rfl
  | .vStr _ => rfl
  | .vDate _ => rfl
  | .vRegExpV _ _ => rfl
  | .vArr items => by simp [deepClone, deepCloneL_eq items]
  | .vObj fields => by simp [deepClone, deepCloneF_eq fields]

/-- The element-wise clone of any JS array is deep-equal to the original. -/
theorem deepCloneL_eq : ∀ l : JSList, deepCloneL l = l
  | .nil => rfl
  | .cons v tl => by simp [deepCloneL, deepCloneJS_eq v, deepCloneL_eq tl]

/-- The key-wise clone of any plain object is deep-equal to the original. -/
theorem deepCloneF_eq : ∀ l : JSFields, deepCloneF l = l
  | .fnil => rfl
  | .fcons k v tl => by simp [deepCloneF, deepCloneJS_eq v, deepCloneF_eq tl]
end

/-- C1: mask never mutates its input. The engine deep-clones the input before
transforming it (primitives as-is, Dates and RegExps via their constructors,
arrays element-wise, plain objects key-wise), and for every JS value the clone
is deep-equal to the original; in this pure embedding the value passed to mask
is therefore observationally unchanged by the call. -/
theorem C1_mask_never_mutates_input : ∀ v : JSValue, deepClone v = v :=
  deepCloneJS_eq

/-- C2 counterexample: with the single unanchored custom pattern `ID-\d+` in
scope, the field `note` with value `"xID-123x"` is classified with the custom
class even though no custom pattern matches the value in its entirety (the
exact matcher rejects it), no field-name rule applies and no built-in value
pattern matches; the claim as stated predicts this field is unclassified. -/
theorem C2_counterexample :
    Detector.detectFieldType D2 "note" (.vStr "xID-123x") = some .custom ∧
    (Detector.detectExactCustomValue D2 (.vStr "xID-123x")).isNone = true ∧
    Detector.isPHIFieldName "note" = false ∧
    Detector.isPIIFieldName "note" = false ∧
    (Detector.detectPHIValue D2 (.vStr "xID-123x")).isNone = true ∧
    (Detector.detectPIIValue D2 (.vStr "xID-123x")).isNone = true := by
  decide

/-- C2 (amended): auto-detection classification follows the precedence PHI
field name, then PII field name, then the first custom pattern whose regex
finds a match anywhere in the value (per JS `RegExp.test`, honoring only the
pattern's own anchors, not whole-value matching), then built-in PHI value
patterns, then built-in PII value patterns; otherwise unclassified. -/
theorem C2_amended_detect_precedence (d : DetectorState) (name : String) (value : JSValue) :
    (Detector.isPHIFieldName name = true →
      Detector.detectFieldType d name value = some .phi) ∧
    (Detector.isPHIFieldName name = false → Detector.isPIIFieldName name = true →
      Detector.detectFieldType d name value = some .pii) ∧
    (Detector.isPHIFieldName name = false → Detector.isPIIFieldName name = false →
      ∀ cp, Detector.detectCustomValue d value = some cp →
        Detector.detectFieldType d name value = some cp.fieldType) ∧
    (Detector.isPHIFieldName name = false → Detector.isPIIFieldName name = false →
      Detector.detectCustomValue d value = none →
      ∀ p, Detector.detectPHIValue d value = some p →
        Detector.detectFieldType d name value = some .phi) ∧
    (Detector.isPHIFieldName name = false → Detector.isPIIFieldName name = false →
      Detector.detectCustomValue d value = none → Detector.detectPHIValue d value = none →
      ∀ p, Detector.detectPIIValue d value = some p →
        Detector.detectFieldType d name value = some .pii) ∧
    (Detector.isPHIFieldName name = false → Detector.isPIIFieldName name = false →
      Detector.detectCustomValue d value = none → Detector.detectPHIValue d value = none →
      Detector.detectPIIValue d value = none →
      Detector.detectFieldType d name value = none) := by
  unfold Detector.detectFieldType
  refine ⟨?_, ?_, ?_, ?_, ?_, ?_⟩
  · intro h1
    simp [h1]
  · intro h1 h2
    simp [h1, h2]
  · intro h1 h2 cp h3
    simp [h1, h2, h3]
  · intro h1 h2 h3 p h4
    simp [h1, h2, h3, h4]
  · intro h1 h2 h3 h4 p h5
    simp [h1, h2, h3, h4, h5]
  · intro h1 h2 h3 h4 h5
    simp [h1, h2, h3, h4, h5]

/-- Witness for the amended C2 at a concrete input: the PHI field name wins. -/
theorem C2_amended_witness :
    Detector.detectFieldType D2 "patientName" (.vStr "zzz") = some .phi :=
  (C2_amended_detect_precedence D2 "patientName" (.vStr "zzz")).1 (by decide)

/-- C6: field-name auto-detection uses word-boundary matching on the
lower-cased name: `description` and `subscription` match no sensitive
field-name entry (in particular not via the fragment `ip`), while `ipAddress`
is PII, so any detector classifies an `ipAddress` field as PII regardless of
its value. -/
theorem C6_word_boundary_field_names :
    Detector.isPIIFieldName "description" = false ∧
    Detector.isPHIFieldName "description" = false ∧
    Detector.isPIIFieldName "subscription" = false ∧
    Detector.isPHIFieldName "subscription" = false ∧
    Detector.isPIIFieldName "ipAddress" = true ∧
    (∀ (d : DetectorState) (v : JSValue),
      Detector.detectFieldType d "ipAddress" v = some .pii) := by
  refine ⟨by decide, by decide, by decide, by decide, by decide, ?_⟩
  intro d v
  unfold Detector.detectFieldType
  simp [show Detector.isPHIFieldName "ipAddress" = false from by decide,
        show Detector.isPIIFieldName "ipAddress" = true from by decide]

/-- C9: a bare non-container top-level input (string, number or boolean) is
returned unchanged with zero fields processed and an empty detected-field
list, for every engine state and every such value (in particular for strings
that match sensitive patterns): traversal only inspects values reached through
container keys. -/
theorem C9_toplevel_primitives_untouched (m : MaskerState) :
    (∀ s : String, Masker.mask m (.vStr s) = ⟨.vStr s, 0, some []⟩) ∧
    (∀ n : Int, Masker.mask m (.vNum n) = ⟨.vNum n, 0, some []⟩) ∧
    (∀ b : Bool, Masker.mask m (.vBool b) = ⟨.vBool b, 0, some []⟩) :=
  ⟨fun _ => rfl, fun _ => rfl, fun _ => rfl⟩

/-- C10: for every non-null, non-undefined input the result carries a
detected-field list whose length is exactly the processed-fields count, and
null/undefined inputs are returned as-is with count zero and no list. -/
theorem C10_fieldsProcessed_counts (m : MaskerState) :
    Masker.mask m .vNull = ⟨.vNull, 0, none⟩ ∧
    Masker.mask m .vUndefined = ⟨.vUndefined, 0, none⟩ ∧
    ∀ v : JSValue, v ≠ .vNull → v ≠ .vUndefined →
      ∃ l, (Masker.mask m v).detectedFields = some l ∧
        (Masker.mask m v).fieldsProcessed = l.length := by
  refine ⟨rfl, rfl, ?_⟩
  intro v h1 h2
  cases v with
  | vNull => exact absurd rfl h1
  | vUndefined => exact absurd rfl h2
  | vBool b => exact ⟨_, rfl, rfl⟩
  | vNum n => exact ⟨_, rfl, rfl⟩
  | vStr s => exact ⟨_, rfl, rfl⟩
  | vDate t => exact ⟨_, rfl, rfl⟩
  | vRegExpV src fl => exact ⟨_, rfl, rfl⟩
  | vArr items => exact ⟨_, rfl, rfl⟩
  | vObj fields => exact ⟨_, rfl, rfl⟩

/-- Witness for C10 at a concrete engine and object input. -/
theorem C10_witness :
    ∃ l, (Masker.mask M10 (.vObj (.fcons "email" (.vStr "a@b.co") .fnil))).detectedFields = some l ∧
      (Masker.mask M10 (.vObj (.fcons "email" (.vStr "a@b.co") .fnil))).fieldsProcessed =
        l.length :=
  (C10_fieldsProcessed_counts M10).2.2 (.vObj (.fcons "email" (.vStr "a@b.co") .fnil))
    (by decide) (by decide)

/-- C3 counterexample: the field `email` with value `" ID-123"` (leading space)
is classified PII; the trimmed value is matched in its entirety by the anchored
custom pattern `P3`, whose class is also PII and whose explicit strategy is
`full` (which would yield `"********"`); yet the engine masks with the rule
resolver (partial in development), producing `" I****"` — because the exact
matcher also requires the pattern to test positively on the raw, untrimmed
value, which the anchors reject. The claim as stated predicts `"********"`. -/
theorem C3_counterexample :
    Masker.getFieldType M3 "email" (.vStr " ID-123") = some .pii ∧
    P3.fieldType = .pii ∧
    jsRegexTest P3.pattern (jsTrim (" ID-123").data) = true ∧
    jsFirstMatch P3.pattern (jsTrim (" ID-123").data) = some (jsTrim (" ID-123").data) ∧
    P3.maskingStrategy = some .fullS ∧
    applyMaskingStrategy M3.hashHex (.vStr " ID-123") .fullS M3.hashAlgorithm =
      .vStr "********" ∧
    (Masker.mask M3 (.vObj (.fcons "email" (.vStr " ID-123") .fnil))).masked =
      .vObj (.fcons "email" (.vStr " I****") .fnil) ∧
    JSValue.vStr " I****" ≠ .vStr "********" := by
  decide

/-- C3 (amended): for a classified field, the custom-pattern override fires
exactly when the engine's exact-match lookup (pattern tests positively on the
raw value and on the trimmed value, and its first match on the trimmed value
is the whole trimmed value) returns a first matching pattern, in registration
order, whose class equals the field's class; then that pattern's custom
transform, else its explicit strategy, else the rule resolver is used, and on
a class mismatch or no exact match the rule resolver's (fieldName, class)
decision is used; the traversal substitutes exactly this result. -/
theorem C3_amended_custom_override (m : MaskerState) (key : String) (value : JSValue)
    (ft : FieldType) (tl : JSFields) (path : String) (dfs : List DetectedField)
    (hcl : Masker.getFieldType m key value = some ft) :
    (∀ cp f, Detector.getMatchingCustomPattern m.detector value = some cp →
      cp.fieldType = ft → cp.customMask = some f →
      classifiedResult m key value ft = (.vStr (f (jsStrOf value)), .custom)) ∧
    (∀ cp st, Detector.getMatchingCustomPattern m.detector value = some cp →
      cp.fieldType = ft → cp.customMask = none → cp.maskingStrategy = some st →
      classifiedResult m key value ft =
        (RulesState.applyCustomStrategy m.hashHex m.rules value st (some m.hashAlgorithm),
         .strat st)) ∧
    (∀ cp, Detector.getMatchingCustomPattern m.detector value = some cp →
      cp.fieldType = ft → cp.customMask = none → cp.maskingStrategy = none →
      classifiedResult m key value ft =
        (RulesState.maskValue m.hashHex m.rules key value (some ft),
         .strat (RulesState.getStrategy m.rules key (some ft)))) ∧
    (∀ cp, Detector.getMatchingCustomPattern m.detector value = some cp →
      cp.fieldType ≠ ft →
      classifiedResult m key value ft =
        (RulesState.maskValue m.hashHex m.rules key value (some ft),
         .strat (RulesState.getStrategy m.rules key (some ft)))) ∧
    (Detector.getMatchingCustomPattern m.detector value = none →
      classifiedResult m key value ft =
        (RulesState.maskValue m.hashHex m.rules key value (some ft),
         .strat (RulesState.getStrategy m.rules key (some ft)))) ∧
    ((maskFieldsGo m (.fcons key value tl) path dfs).1 =
      consEntry (classifiedEntry m key value ft)
        (maskFieldsGo m tl path
          (dfs ++ [classifiedDetected m key value ft
            (if path = "" then key else path ++ "." ++ key)])).1) := by
  refine ⟨?_, ?_, ?_, ?_, ?_, ?_⟩
  · intro cp f h1 h2 h3
    simp [classifiedResult, h1, h2, h3]
  · intro cp st h1 h2 h3 h4
    simp [classifiedResult, h1, h2, h3, h4]
  · intro cp h1 h2 h3 h4
    simp [classifiedResult, h1, h2, h3, h4]
  · intro cp h1 h2
    simp [classifiedResult, h1, h2]
  · intro h1
    simp [classifiedResult, h1]
  · simp [maskFieldsGo, hcl]

/-- Witness for the amended C3: on the clean value `"ID-123"` the same-class
exact custom match fires and its explicit `full` strategy is used. -/
theorem C3_amended_witness :
    classifiedResult M3 "email" (.vStr "ID-123") .pii = (.vStr "********", .strat .fullS) := by
  have h := (C3_amended_custom_override M3 "email" (.vStr "ID-123") .pii .fnil "" []
    (by decide)).2.1 P3 .fullS rfl rfl rfl rfl
  exact h.trans (by decide)

/-- Dropping the first pattern with a given name yields a sublist. -/
theorem removeFirstByName_sublist (n : String) :
    ∀ l : List CustomPattern, (removeFirstByName l n).Sublist l
  | [] => List.Sublist.slnil
  | p :: rest => by
    unfold removeFirstByName
    by_cases h : p.name = n
    · rw [if_pos h]
      exact (List.Sublist.refl rest).cons p
    · rw [if_neg h]
      exact (removeFirstByName_sublist n rest).cons₂ p

/-- Every single pattern-management operation preserves uniqueness of the
names in the detection registry. -/
theorem patternOp_preserves_nodup (m : MaskerState) (op : PatternOp)
    (h : (detectorNames m).Nodup) : (detectorNames (applyPatternOp m op)).Nodup := by
  cases op with
  | addOp p =>
    by_cases hd : m.detector.customPatterns.any (fun q => q.name = p.name) = true
    · simp [applyPatternOp, Masker.addCustomPattern, Detector.addCustomPatternD, hd,
        detectorNames] at h ⊢
      exact h
    · simp only [applyPatternOp, Masker.addCustomPattern, Detector.addCustomPatternD]
      rw [if_neg hd]
      simp only [detectorNames] at h ⊢
      simp only [List.map_append, List.map_cons, List.map_nil]
      rw [List.nodup_append]
      refine ⟨h, List.nodup_singleton _, ?_⟩
      intro a ha hb
      simp only [List.mem_singleton] at hb
      subst hb
      rcases List.mem_map.mp ha with ⟨q, hq, hqn⟩
      have : m.detector.customPatterns.any (fun q => q.name = p.name) = true := by
        rw [List.any_eq_true]
        exact ⟨q, hq, by simp [hqn]⟩
      exact hd this
  | removeOp n =>
    by_cases hc : m.configPatterns.any (fun p => p.name = n) = true
    · simp only [applyPatternOp, Masker.removeCustomPattern]
      rw [if_pos hc]
      by_cases hdn : m.detector.customPatterns.any (fun p => p.name = n) = true
      · simp only [Detector.removeCustomPatternD]
        rw [if_pos hdn]
        simp only [detectorNames] at h ⊢
        exact ((removeFirstByName_sublist n m.detector.customPatterns).map _).nodup h
      · simp only [Detector.removeCustomPatternD]
        rw [if_neg hdn]
        exact h
    · simp only [applyPatternOp, Masker.removeCustomPattern]
      rw [if_neg hc]
      exact h
  | clearOp =>
    simp [applyPatternOp, Masker.clearCustomPatterns, Detector.clearCustomPatternsD,
      detectorNames]

/-- C4 counterexample: adding a duplicate-named pattern to an engine does
produce the configuration error, but the stored configuration is changed by
the failed add: the pattern list on the configuration ends up as
`["t", "t"]` where it was `["t"]` (the push precedes the validation), so the
engine state is not unchanged as the claim requires. -/
theorem C4_counterexample :
    (Masker.addCustomPattern M4 P4b).2.isSome = true ∧
    (Masker.addCustomPattern M4 P4b).1.configPatterns.map (fun p => p.name) = ["t", "t"] ∧
    M4.configPatterns.map (fun p => p.name) = ["t"] ∧
    detectorNames (Masker.addCustomPattern M4 P4b).1 = ["t"] := by
  decide

/-- C4 (amended): adding a pattern whose name is already registered raises the
configuration error and leaves the detection registry unchanged, but appends
the duplicate to the stored configuration list; a fresh-named add succeeds and
appends to both; and the uniqueness invariant holds for the detection registry
after every sequence of add/remove/clear operations. -/
theorem C4_amended_uniqueness :
    (∀ (m : MaskerState) (p : CustomPattern),
      m.detector.customPatterns.any (fun q => q.name = p.name) = true →
      (Masker.addCustomPattern m p).2.isSome = true ∧
      (Masker.addCustomPattern m p).1.detector = m.detector ∧
      (Masker.addCustomPattern m p).1.configPatterns = m.configPatterns ++ [p]) ∧
    (∀ (m : MaskerState) (p : CustomPattern),
      m.detector.customPatterns.any (fun q => q.name = p.name) = false →
      (Masker.addCustomPattern m p).2 = none ∧
      (Masker.addCustomPattern m p).1.detector.customPatterns =
        m.detector.customPatterns ++ [p] ∧
      (Masker.addCustomPattern m p).1.configPatterns = m.configPatterns ++ [p]) ∧
    (∀ (m : MaskerState) (ops : List PatternOp),
      (detectorNames m).Nodup → (detectorNames (applyPatternOps m ops)).Nodup) := by
  refine ⟨?_, ?_, ?_⟩
  · intro m p hd
    simp [Masker.addCustomPattern, Detector.addCustomPatternD, hd]
  · intro m p hd
    simp [Masker.addCustomPattern, Detector.addCustomPatternD, hd]
  · intro m ops
    induction ops generalizing m with
    | nil => exact fun h => h
    | cons op rest ih =>
      intro h
      exact ih (applyPatternOp m op) (patternOp_preserves_nodup m op h)

/-- Witness for the amended C4: the duplicate add on a concrete engine errors
and leaves the detection registry unchanged. -/
theorem C4_amended_witness :
    (Masker.addCustomPattern M4 P4b).2.isSome = true ∧
    (Masker.addCustomPattern M4 P4b).1.detector = M4.detector := by
  have h := C4_amended_uniqueness.1 M4 P4b (by decide)
  exact ⟨h.1, h.2.1⟩

/-- C5 counterexample: the custom pattern `P5` substitutes `"123 4567 8901"`
for `SECRETCODE`; the built-in phone scan then runs over that output and
re-masks the substituted digits to `"*********8901"`, so built-in scanning
does match inside replacement text that a custom pattern already substituted,
contrary to the claim. -/
theorem C5_counterexample :
    String.mk (customScanPass dummyHash D5 .partialS ("pin SECRETCODE end").data) =
      "pin 123 4567 8901 end" ∧
    Detector.maskStringValue dummyHash D5 "pin SECRETCODE end" .partialS =
      "pin *********8901 end" ∧
    ("pin *********8901 end" : String) ≠ "pin 123 4567 8901 end" := by
  decide

/-- C5 (amended): for every nonempty scanned string, custom-pattern replacement
runs before the built-in email/phone/national-id/payment-card replacements;
the built-in phase operates on the text produced by the custom phase (and may
therefore match inside replacement text a custom pattern substituted). -/
theorem C5_amended_scan_order (hh : String → String → String) (d : DetectorState)
    (value : String) (strategy : MaskingStrategy) (h : value ≠ "") :
    Detector.maskStringValue hh d value strategy =
      String.mk (builtinScanPass hh strategy (customScanPass hh d strategy value.data)) := by
  unfold Detector.maskStringValue
  rw [if_neg]
  intro hlen
  apply h
  cases value with
  | mk data =>
    cases data with
    | nil => rfl
    | cons c cs => simp at hlen

/-- Witness for the amended C5 at a concrete detector and string. -/
theorem C5_amended_witness :
    Detector.maskStringValue dummyHash D5 "pin SECRETCODE end" .partialS =
      String.mk (builtinScanPass dummyHash .partialS
        (customScanPass dummyHash D5 .partialS ("pin SECRETCODE end").data)) :=
  C5_amended_scan_order dummyHash D5 "pin SECRETCODE end" .partialS (by decide)

/-- C7: for every classified field whose resolved strategy is `remove`, the
produced entry binds the key to the fixed placeholder when structure
preservation is on and is absent when it is off; in particular masking the
singleton object with that key yields the placeholder binding respectively
the empty object. -/
theorem C7_remove_strategy (m : MaskerState) (key : String) (value : JSValue) (ft : FieldType)
    (h1 : Masker.getFieldType m key value = some ft)
    (h2 : (classifiedResult m key value ft).2 = .strat .removeS) :
    classifiedEntry m key value ft =
      (if m.preserveStructure then some (key, .vStr "<removed>") else none) ∧
    (Masker.mask m (.vObj (.fcons key value .fnil))).masked =
      (if m.preserveStructure then JSValue.vObj (.fcons key (.vStr "<removed>") .fnil)
       else .vObj .fnil) := by
  have hentry : classifiedEntry m key value ft =
      (if m.preserveStructure then some (key, .vStr "<removed>") else none) := by
    unfold classifiedEntry
    rw [if_pos h2]
  refine ⟨hentry, ?_⟩
  have hclone : deepClone (.vObj (.fcons key value .fnil)) = .vObj (.fcons key value .fnil) :=
    deepCloneJS_eq _
  by_cases hp : m.preserveStructure
  · simp [Masker.mask, hclone, maskObject, maskFieldsGo, h1, hentry, hp, consEntry]
  · simp [Masker.mask, hclone, maskObject, maskFieldsGo, h1, hentry, hp, consEntry]

/-- Witness for C7: the concrete engines with a `remove` rule on field `a`
produce the placeholder binding respectively the empty object. -/
theorem C7_witness :
    (Masker.mask M7a (.vObj (.fcons "a" (.vStr "secret") .fnil))).masked =
      .vObj (.fcons "a" (.vStr "<removed>") .fnil) ∧
    (Masker.mask M7b (.vObj (.fcons "a" (.vStr "secret") .fnil))).masked = .vObj .fnil := by
  constructor
  · exact (C7_remove_strategy M7a "a" (.vStr "secret") .pii (by decide) (by decide)).2
  · exact (C7_remove_strategy M7b "a" (.vStr "secret") .pii (by decide) (by decide)).2

/-- C8: the partial strategy is total with the claimed cases. For strings with
`@` it reveals up to 2 leading local-part characters (exactly
`min 2 (len/3)`), masks the rest of the local part and keeps the domain
verbatim; for strings made solely of digits, `+`, `-`, `(`, `)` and whitespace
with at least 4 digits it keeps the last 4 digits and pads with one mask char
per remaining digit, so the output length equals the digit count; every other
nonempty string keeps up to 2 leading characters followed by the mask; the
empty string and every non-string value get the fixed 8-char token. -/
theorem C8_partial_cases :
    (∀ s : String,
      (s.data.contains '@' = true →
        partialMask s = String.mk ((localOf s.data).take
            (Nat.min 2 ((localOf s.data).length / 3)) ++ "****".data ++ '@' :: domainOf s.data) ∧
        Nat.min 2 ((localOf s.data).length / 3) ≤ 2) ∧
      (s.data.contains '@' = false → phoneShape s.data = true →
        4 ≤ (s.data.filter isDigitC).length →
        partialMask s = String.mk (List.replicate ((s.data.filter isDigitC).length - 4) '*' ++
            (s.data.filter isDigitC).drop ((s.data.filter isDigitC).length - 4)) ∧
        (partialMask s).length = (s.data.filter isDigitC).length) ∧
      (s ≠ "" → s.data.contains '@' = false →
        ¬(phoneShape s.data = true ∧ 4 ≤ (s.data.filter isDigitC).length) →
        partialMask s = String.mk (s.data.take (Nat.min 2 (s.data.length / 3)) ++ "****".data) ∧
        Nat.min 2 (s.data.length / 3) ≤ 2) ∧
      (s = "" → partialMask s = "********")) ∧
    (∀ (hh : String → String → String) (alg : String) (v : JSValue),
      (∀ t, v ≠ .vStr t) → applyMaskingStrategy hh v .partialS alg = .vStr "********") := by
  constructor
  · intro s
    refine ⟨?_, ?_, ?_, ?_⟩
    · intro hat
      have hne : s.data.length ≠ 0 := by
        intro hz
        rw [List.length_eq_zero] at hz
        rw [hz] at hat
        simp [List.contains] at hat
      constructor
      · unfold partialMask
        rw [if_neg hne, if_pos hat]
      · exact Nat.min_le_left _ _
    · intro hat hph hd
      have hne : s.data.length ≠ 0 := by
        intro hz
        rw [List.length_eq_zero] at hz
        rw [hz] at hph
        simp [phoneShape] at hph
      have heq : partialMask s = String.mk
          (List.replicate ((s.data.filter isDigitC).length - 4) '*' ++
            (s.data.filter isDigitC).drop ((s.data.filter isDigitC).length - 4)) := by
        unfold partialMask
        rw [if_neg hne, if_neg (by intro hcc; rw [hat] at hcc; exact Bool.noConfusion hcc),
          if_pos ⟨hph, hd⟩]
      refine ⟨heq, ?_⟩
      rw [heq]
      show (String.mk _).data.length = _
      simp only [List.length_append, List.length_replicate, List.length_drop]
      omega
    · intro hs hat hnp
      have hne : s.data.length ≠ 0 := by
        intro hz
        rw [List.length_eq_zero] at hz
        apply hs
        cases s with
        | mk data => simp_all
      constructor
      · unfold partialMask
        rw [if_neg hne, if_neg (by intro hcc; rw [hat] at hcc; exact Bool.noConfusion hcc),
          if_neg hnp]
      · exact Nat.min_le_left _ _
    · intro hs
      subst hs
      rfl
  · intro hh alg v hv
    cases v with
    | vStr t => exact absurd rfl (hv t)
    | vNull => rfl
    | vUndefined => rfl
    | vBool b => rfl
    | vNum n => rfl
    | vDate t => rfl
    | vRegExpV a b => rfl
    | vArr l => rfl
    | vObj f => rfl

/-- Witness for C8 at concrete email-shaped and phone-shaped strings. -/
theorem C8_witness :
    partialMask "john@gmail.com" = "j****@gmail.com" ∧
    partialMask "+1-555-9876" = "****9876" := by
  constructor
  · exact ((C8_partial_cases.1 "john@gmail.com").1 (by decide)).1.trans (by decide)
  · exact ((C8_partial_cases.1 "+1-555-9876").2.1 (by decide) (by decide)
      (by decide)).1.trans (by decide)

end LogVeil
